import Mathlib

set_option maxRecDepth 10000

/-!
Verification development for the `esp32_p1meter` firmware
(`src/src/esp32_p1meter.cpp`): a shallow embedding of its DSMR P1
telegram decoding core (CRC16 checksum engine, backward delimiter
search, numeric value extraction, field registry construction and the
per-line decoder), together with theorems settling the frozen claims
about that code.

Conventions of the embedding:
- C `unsigned` arithmetic is modelled with `Nat` (all values reachable
  here stay far below `2 ^ 32`, so no wraparound is ever exercised).
- The line buffer is modelled as the `List Char` of exactly the bytes
  of the current line (the callers bound every in-range access by the
  line length; reads past the line see the NUL put there by
  `readP1Serial`, modelled by `List.getD` with a NUL default).
- C undefined behavior (the `strncpy` calls whose size argument is
  negative, or which overrun the 16-byte `res` buffer) is modelled as
  `Option.none` and propagated.
-/

namespace P1Meter

/-! ## Checksum engine (source: `crc16`, lines 388-408) -/

/-- The inner `for (int i = 8; i != 0; i--)` loop body of `crc16`:
8 rounds of shift-and-conditionally-xor on the accumulator. -/
def crc16Rounds : Nat → Nat → Nat
  | crc, 0 => crc
  | crc, Nat.succ i =>
      crc16Rounds (if crc &&& 1 ≠ 0 then (crc >>> 1) ^^^ 0xA001 else crc >>> 1) i

/-- Model of `crc16(unsigned int crc, unsigned char *buf, int len)` from the source:
for each byte, xor it into the accumulator, then run the 8 inner rounds. -/
def crc16 (crc : Nat) (buf : List Nat) : Nat :=
  match buf with
  | [] => crc
  | b :: rest => crc16 (crc16Rounds (crc ^^^ b) 8) rest

/-- One round, in the words of the specification: right-shift the
accumulator and xor with `0xA001` whenever the low bit was set before
the shift. -/
def crc16SpecRound (crc : Nat) : Nat :=
  if crc % 2 = 1 then (crc / 2) ^^^ 0xA001 else crc / 2

/-- One byte step, in the words of the specification: xor the byte into
the low byte of the accumulator, then perform 8 rounds. -/
def crc16SpecByte (crc b : Nat) : Nat :=
  crc16SpecRound^[8] ((crc / 256) * 256 + ((crc % 256) ^^^ b))

/-- The checksum engine as the specification describes it: an
order-sensitive fold of `crc16SpecByte` over the input bytes. -/
def crc16Spec (crc : Nat) (buf : List Nat) : Nat :=
  buf.foldl crc16SpecByte crc

/-! ## Backward character search (source: `findCharInArrayRev`, lines 422-433) -/

/-- Helper for `findCharInArrayRev`: scan indices `n-1, n-2, ..., 0`.
Reads past the modelled buffer see NUL (`readP1Serial` zero-terminates). -/
def findCharRevAux (array : List Char) (c : Char) : Nat → Int
  | 0 => -1
  | Nat.succ i => if array.getD i (Char.ofNat 0) = c then (i : Int) else findCharRevAux array c i

/-- Model of `findCharInArrayRev(char array[], char c, int len)` from the source:
index of the rightmost occurrence of `c` among `array[0 .. len-1]`, or `-1`. -/
def findCharInArrayRev (array : List Char) (c : Char) (len : Int) : Int :=
  findCharRevAux array c len.toNat

/-! ## Numeric test and extraction (source: `isNumber` lines 410-420, `getValue` lines 435-458) -/

/-- Model of `isNumber(char *res, int len)` from the source, applied to the list of
bytes actually copied into `res`: every byte must be a digit, `'.'`, or NUL.
(The zero padding that `strncpy` leaves in the rest of the 16-byte buffer
passes the per-byte test, so checking the copied bytes is equivalent.) -/
def isNumber (res : List Char) : Bool :=
  res.all fun c => (decide ('0' ≤ c) && decide (c ≤ '9')) || c == '.' || c == Char.ofNat 0

/-- Value of a most-significant-first decimal digit string. -/
def digitsVal : List Char → Nat
  | [] => 0
  | c :: cs => (c.toNat - 48) * 10 ^ cs.length + digitsVal cs

/-- Digit test used by `atofQ`. -/
def isDigitCh (c : Char) : Bool :=
  decide ('0' ≤ c) && decide (c ≤ '9')

/-- Models C `atof` on the unsigned decimal literals reachable from
`getValue` (strings of digits and dots): the longest leading
`digits [ '.' digits ]` prefix, read as an exact rational. The IEEE-754
double rounding that the real `atof` and the subsequent multiplication
perform is idealized away; no claim settled through `atofQ` depends on
the numeric value it returns. -/
def atofQ (s : List Char) : ℚ :=
  match s.drop (s.takeWhile isDigitCh).length with
  | c :: fr =>
      if c = '.' then
        (digitsVal (s.takeWhile isDigitCh) : ℚ) +
          (digitsVal (fr.takeWhile isDigitCh) : ℚ) / (10 : ℚ) ^ (fr.takeWhile isDigitCh).length
      else (digitsVal (s.takeWhile isDigitCh) : ℚ)
  | [] => (digitsVal (s.takeWhile isDigitCh) : ℚ)

/-- Model of `(long)(1000 * atof(res))` from the `'*'` branch of `getValue`, for
the digit-and-dot strings reachable there, computed in exact integer
arithmetic; `atofScaled1000_eq_floor` identifies it with
`⌊1000 * atofQ s⌋`. -/
def atofScaled1000 (s : List Char) : Int :=
  match s.drop (s.takeWhile isDigitCh).length with
  | c :: fr =>
      if c = '.' then
        1000 * (digitsVal (s.takeWhile isDigitCh) : Int) +
          (1000 * digitsVal (fr.takeWhile isDigitCh) / 10 ^ (fr.takeWhile isDigitCh).length : Nat)
      else 1000 * (digitsVal (s.takeWhile isDigitCh) : Int)
  | [] => 1000 * (digitsVal (s.takeWhile isDigitCh) : Int)

/-- Model of `(long)atof(res)` from the `')'` branch of `getValue`, computed in
exact integer arithmetic; `atofTrunc_eq_floor` identifies it with
`⌊atofQ s⌋`. -/
def atofTrunc (s : List Char) : Int :=
  match s.drop (s.takeWhile isDigitCh).length with
  | c :: fr =>
      if c = '.' then
        (digitsVal (s.takeWhile isDigitCh) : Int) +
          (digitsVal (fr.takeWhile isDigitCh) / 10 ^ (fr.takeWhile isDigitCh).length : Nat)
      else (digitsVal (s.takeWhile isDigitCh) : Int)
  | [] => (digitsVal (s.takeWhile isDigitCh) : Int)

/-- The bytes `strncpy(res, src, l)` actually copies out of `src`:
at most `l` bytes, stopping at the first NUL (the rest of `res` keeps
its zero fill). -/
def strncpyRes (src : List Char) (l : Nat) : List Char :=
  (src.take l).takeWhile fun c => c ≠ Char.ofNat 0

/-- Model of `getValue(char *buffer, int maxlen, char startchar, char endchar)` from
the source. Both delimiter searches are bounded by `maxlen - 2`. The span
`l = findCharInArrayRev(endchar) - s - 1` is handed to `strncpy` as its
size: a negative `l` (converted to a huge `size_t`) or an `l` past the
16-byte `res` buffer is undefined behavior, modelled as `none`; so is the
`atof` overread when `l = 16` leaves `res` without a NUL terminator.
On the defined paths the source returns `(long)(1000 * atof(res))` for
end delimiter `'*'`, `(long)atof(res)` for `')'`, and `0` whenever the
numeric test fails or the end delimiter is anything else. -/
def getValue (buffer : List Char) (maxlen : Int) (startchar endchar : Char) : Option Int :=
  let s := findCharInArrayRev buffer startchar (maxlen - 2)
  let l := findCharInArrayRev buffer endchar (maxlen - 2) - s - 1
  if l < 0 ∨ 16 < l then none
  else
    let res := strncpyRes (buffer.drop (s + 1).toNat) l.toNat
    if endchar = '*' then
      if isNumber res then
        if l = 16 then none else some (atofScaled1000 res)
      else some 0
    else if endchar = ')' then
      if isNumber res then
        if l = 16 then none else some (atofTrunc res)
      else some 0
    else some 0

/-! ## Readings store and field registry (source: `settings.h` globals, `setupDataReadout` lines 143-268) -/

/-- One entry of the global `telegramObjects` array: a field definition
(name, code, value delimiters) fused with its mutable Reading
(`value`, `sendData`). -/
structure TObj where
  name : String
  code : String
  value : Int
  startChar : Char
  endChar : Char
  sendData : Bool
deriving DecidableEq, Repr

/-- Modelled from the spec: `settings.h` (which declares the
`telegramObjects` array) is not under `src/`. Per the spec, every
Reading starts with value `0` and dirty flag `false`, and the default
value delimiters are `'('` and `')'`. -/
def defaultTObj : TObj :=
  { name := "", code := "", value := 0, startChar := '(', endChar := ')', sendData := false }

/-- Modelled from the spec: `NUMBER_OF_READOUTS` lives in the missing
`settings.h`; the spec design note speaks of 19 intended fields, and the
highest index `setupDataReadout` assigns is 18. -/
def NUMBER_OF_READOUTS : Nat := 19

/-- The `telegramObjects` array before `setupDataReadout` runs. -/
def telegramObjectsInit : List TObj :=
  List.replicate NUMBER_OF_READOUTS defaultTObj

/-- One assignment group of `setupDataReadout`: update slot `i` in place. -/
def setObj (t : List TObj) (i : Nat) (f : TObj → TObj) : List TObj :=
  t.set i (f (t.getD i defaultTObj))

/-- Model of `setupDataReadout()` from the source, assignment groups in source
order. Note that slots 0, 1, 4, 5 and 6 are each assigned twice (the
second assignment clobbers the first), and that the end-delimiter
assignment next to the `gas_meter_m3` setup writes
`telegramObjects[12].endChar`, not slot 18. -/
def setupDataReadout (t : List TObj) : List TObj :=
  let t := setObj t 0 fun o => { o with name := "consumption_tarif_1", code := "1-0:1.8.1", endChar := '*' }
  let t := setObj t 1 fun o => { o with name := "consumption_tarif_2", code := "1-0:1.8.2", endChar := '*' }
  let t := setObj t 0 fun o => { o with name := "received_tarif_1", code := "1-0:2.8.1", endChar := '*' }
  let t := setObj t 1 fun o => { o with name := "received_tarif_2", code := "1-0:2.8.2", endChar := '*' }
  let t := setObj t 2 fun o => { o with name := "actual_consumption", code := "1-0:1.7.0", endChar := '*' }
  let t := setObj t 3 fun o => { o with name := "actual_received", code := "1-0:2.7.0", endChar := '*' }
  let t := setObj t 4 fun o => { o with name := "instant_power_usage_l1", code := "1-0:21.7.0", endChar := '*' }
  let t := setObj t 5 fun o => { o with name := "instant_power_usage_l2", code := "1-0:41.7.0", endChar := '*' }
  let t := setObj t 6 fun o => { o with name := "instant_power_usage_l3", code := "1-0:61.7.0", endChar := '*' }
  let t := setObj t 4 fun o => { o with name := "instant_power_return_l1", code := "1-0:22.7.0", endChar := '*' }
  let t := setObj t 5 fun o => { o with name := "instant_power_return_l2", code := "1-0:42.7.0", endChar := '*' }
  let t := setObj t 6 fun o => { o with name := "instant_power_return_l3", code := "1-0:62.7.0", endChar := '*' }
  let t := setObj t 7 fun o => { o with name := "instant_power_current_l1", code := "1-0:31.7.0", endChar := '*' }
  let t := setObj t 8 fun o => { o with name := "instant_power_current_l2", code := "1-0:51.7.0", endChar := '*' }
  let t := setObj t 9 fun o => { o with name := "instant_power_current_l3", code := "1-0:71.7.0", endChar := '*' }
  let t := setObj t 10 fun o => { o with name := "instant_voltage_l1", code := "1-0:32.7.0", endChar := '*' }
  let t := setObj t 11 fun o => { o with name := "instant_voltage_l2", code := "1-0:52.7.0", endChar := '*' }
  let t := setObj t 12 fun o => { o with name := "instant_voltage_l3", code := "1-0:72.7.0", endChar := '*' }
  let t := setObj t 13 fun o => { o with name := "actual_tarif_group", code := "0-0:96.14.0" }
  let t := setObj t 18 fun o => { o with name := "gas_meter_m3", code := "0-1:24.2.3" }
  let t := setObj t 12 fun o => { o with endChar := '*' }
  t

/-- The registry after startup: `setupDataReadout` applied to the
zero-initialized `telegramObjects`. -/
def telegramObjects : List TObj :=
  setupDataReadout telegramObjectsInit

/-! ## Per-line decoder (source: `decodeTelegram`, lines 463-528) -/

/-- Value of one hexadecimal digit, upper- or lowercase, as `strtol`
with base 16 reads it. -/
def hexDigitVal (c : Char) : Option Nat :=
  if '0' ≤ c ∧ c ≤ '9' then some (c.toNat - 48)
  else if 'a' ≤ c ∧ c ≤ 'f' then some (c.toNat - 87)
  else if 'A' ≤ c ∧ c ≤ 'F' then some (c.toNat - 55)
  else none

/-- Accumulator loop of `strtolHex`. -/
def strtolHexAux : List Char → Nat → Nat
  | [], acc => acc
  | c :: rest, acc =>
      match hexDigitVal c with
      | some d => strtolHexAux rest (16 * acc + d)
      | none => acc

/-- Models `strtol(messageCRC, NULL, 16)` on the copied 4-byte window:
parse leading hexadecimal digits, stop at the first non-digit. (The
leading-whitespace and sign handling of the C function is never
exercised: the window starts right after the `!` marker.) -/
def strtolHex (s : List Char) : Nat :=
  strtolHexAux s 0

/-- Model of `strncmp(telegram, code, strlen(code)) == 0` from the decoder loop:
the code is a byte-for-byte prefix of the line. -/
def codeMatches : List Char → List Char → Bool
  | [], _ => true
  | _ :: _, [] => false
  | c :: cs, t :: ts => c == t && codeMatches cs ts

/-- The body of the decoder loop once a line matched: store the new value
and mark the Reading dirty exactly when the value changed. -/
def updateObject (o : TObj) (newValue : Int) : TObj :=
  if newValue ≠ o.value then { o with value := newValue, sendData := true } else o

/-- Index of the first registry entry whose code prefix-matches the line
(the entry at which the decoder loop breaks). -/
def firstMatch : List TObj → List Char → Option Nat
  | [], _ => none
  | o :: rest, t =>
      if codeMatches o.code.data t then some 0
      else (firstMatch rest t).map (· + 1)

/-- The `for` loop of `decodeTelegram` over the registry: scan in order,
and at the first entry whose code prefix-matches the line, run `getValue`
and `updateObject`, then break. `none` propagates the undefined behavior
of `getValue`. -/
def decodeFields (telegram : List Char) (len : Int) : List TObj → Option (List TObj)
  | [] => some []
  | o :: rest =>
      if codeMatches o.code.data telegram then
        match getValue telegram len o.startChar o.endChar with
        | none => none
        | some newValue => some (updateObject o newValue :: rest)
      else
        match decodeFields telegram len rest with
        | none => none
        | some rest2 => some (o :: rest2)

/-- The marker/CRC phase of `decodeTelegram` (lines 463-501): the
`validCRCFound` result and the value the local `currentCRC` holds when
the phase ends. `currentCRC` is declared inside the function and
initialized to `0` on every call; the embedding mirrors that literally. -/
def decodeTelegramCRC (telegram : List Char) (len : Int) : Bool × Nat :=
  let startChar := findCharInArrayRev telegram '/' len
  let endChar := findCharInArrayRev telegram '!' len
  let currentCRC : Nat := 0
  if 0 ≤ startChar then
    (false,
      crc16 0 (((telegram.drop startChar.toNat).take (len - startChar).toNat).map Char.toNat))
  else if 0 ≤ endChar then
    let currentCRC := crc16 currentCRC [(telegram.getD endChar.toNat (Char.ofNat 0)).toNat]
    let messageCRC := (telegram.drop (endChar.toNat + 1)).take 4
    let validCRCFound := strtolHex messageCRC == currentCRC
    (validCRCFound, 0)
  else
    (false, crc16 currentCRC ((telegram.take len.toNat).map Char.toNat))

/-- Model of `decodeTelegram(char* telegram, int len)` from the source: the
marker/CRC phase followed by the registry scan, returning
`validCRCFound` and the updated registry (`none` on the undefined
behavior paths of the scan). -/
def decodeTelegram (telegram : List Char) (len : Int) (objs : List TObj) :
    Option (Bool × List TObj) :=
  match decodeFields telegram len objs with
  | none => none
  | some objs2 => some ((decodeTelegramCRC telegram len).1, objs2)

/-! ## Concrete inputs used by the claim theorems -/

/-- A data line carrying a value for `actual_tarif_group`
(spec scenario `0-0:96.14.0(0001)`), with the trailing CR LF. -/
def tgTarif : List Char := "0-0:96.14.0(0001)\r\n".data

/-- The same line with the closing `)` missing: the end delimiter is
absent from the searched range. -/
def tgNoParen : List Char := "0-0:96.14.0(0001\r\n".data

/-- A line matching `actual_consumption` whose bounded substring `ab` is
not numeric. -/
def tgBad : List Char := "1-0:1.7.0(ab*W)\r\n".data

/-- A line matching `actual_consumption` with the numeric value `1`. -/
def tgOne : List Char := "1-0:1.7.0(1*W)\r\n".data

/-- The registry with a previously stored nonzero value (5) for
`actual_consumption` (slot 2). -/
def objsA : List TObj := setObj telegramObjects 2 fun o => { o with value := 5 }

/-- The registry state after decoding `tgOne` (slot 2 updated to 1000). -/
def c7res : List TObj := (decodeFields tgOne 16 telegramObjects).getD []


/-! ## Checksum engine lemmas -/

lemma crc16Round_eq (crc : Nat) :
    (if crc &&& 1 ≠ 0 then (crc >>> 1) ^^^ 0xA001 else crc >>> 1) = crc16SpecRound crc := by
  have h1 : crc &&& 1 = crc % 2 := Nat.and_one_is_mod crc
  have h2 : crc >>> 1 = crc / 2 := by
    rw [Nat.shiftRight_eq_div_pow, pow_one]
  rw [crc16SpecRound, h1, h2]
  by_cases h : crc % 2 = 1
  · simp [h]
  · have h0 : crc % 2 = 0 := by omega
    simp [h, h0]

lemma crc16Rounds_eq (n : Nat) : ∀ crc : Nat, crc16Rounds crc n = crc16SpecRound^[n] crc := by
  induction n with
  | zero => intro crc; rfl
  | succ n ih =>
      intro crc
      show crc16Rounds (if crc &&& 1 ≠ 0 then (crc >>> 1) ^^^ 0xA001 else crc >>> 1) n =
        crc16SpecRound^[n + 1] crc
      rw [crc16Round_eq, ih, Function.iterate_succ_apply]

lemma xor_mod_two_pow_8 (crc b : Nat) (hb : b < 2 ^ 8) :
    (crc ^^^ b) % 2 ^ 8 = (crc % 2 ^ 8) ^^^ b := by
  apply Nat.eq_of_testBit_eq
  intro i
  rw [Nat.testBit_mod_two_pow, Nat.testBit_xor, Nat.testBit_xor, Nat.testBit_mod_two_pow]
  by_cases hi : i < 8
  · simp [hi]
  · have hbi : b.testBit i = false :=
      Nat.testBit_lt_two_pow
        (lt_of_lt_of_le hb (Nat.pow_le_pow_right (by norm_num) (le_of_not_lt hi)))
    simp [hi, hbi]

lemma xor_mod_256 (crc b : Nat) (hb : b < 256) :
    (crc ^^^ b) % 256 = (crc % 256) ^^^ b := by
  have h := xor_mod_two_pow_8 crc b (by norm_num [hb])
  norm_num at h
  exact h

lemma xor_div_two_pow_8 (crc b : Nat) (hb : b < 2 ^ 8) :
    (crc ^^^ b) / 2 ^ 8 = crc / 2 ^ 8 := by
  rw [← Nat.shiftRight_eq_div_pow, ← Nat.shiftRight_eq_div_pow]
  apply Nat.eq_of_testBit_eq
  intro i
  rw [Nat.testBit_shiftRight, Nat.testBit_shiftRight, Nat.testBit_xor]
  have hbi : b.testBit (8 + i) = false :=
    Nat.testBit_lt_two_pow
      (lt_of_lt_of_le hb (Nat.pow_le_pow_right (by norm_num) (Nat.le_add_right 8 i)))
  simp [hbi]

lemma xor_div_256 (crc b : Nat) (hb : b < 256) :
    (crc ^^^ b) / 256 = crc / 256 := by
  have h := xor_div_two_pow_8 crc b (by norm_num [hb])
  norm_num at h
  exact h

lemma crc16Byte_eq (crc b : Nat) (hb : b < 256) :
    crc16Rounds (crc ^^^ b) 8 = crc16SpecByte crc b := by
  rw [crc16Rounds_eq, crc16SpecByte]
  congr 1
  calc crc ^^^ b
      = 256 * ((crc ^^^ b) / 256) + (crc ^^^ b) % 256 := (Nat.div_add_mod _ 256).symm
    _ = 256 * (crc / 256) + ((crc % 256) ^^^ b) := by
        rw [xor_div_256 crc b hb, xor_mod_256 crc b hb]
    _ = crc / 256 * 256 + ((crc % 256) ^^^ b) := by rw [Nat.mul_comm]

/-- C3: `crc16` is a pure, deterministic function (a Lean `def`) that
implements the reflected CRC-16 with polynomial `0xA001` exactly as the
specification words it: for each input byte, xor it into the low byte of
the accumulator, then run 8 rounds of right-shifting the accumulator and
xor-ing with `0xA001` whenever the low bit was set before the shift
(`crc16Spec` is that description, transcribed literally). -/
theorem crc16_matches_spec (seed : Nat) (buf : List Nat) (hb : ∀ b ∈ buf, b < 256) :
    crc16 seed buf = crc16Spec seed buf := by
  induction buf generalizing seed with
  | nil => rfl
  | cons b rest ih =>
      rw [crc16, crc16Spec, List.foldl_cons, crc16Byte_eq seed b (hb b (by simp))]
      exact ih (crc16SpecByte seed b) fun x hx => hb x (by simp [hx])

/-- Witness for `crc16_matches_spec`: the byte range `"/a\r\n!"` of the
reference telegram used elsewhere in this development. -/
theorem crc16_matches_spec_witness :
    (∀ b ∈ [47, 97, 13, 10, 33], b < 256) ∧
      crc16 0 [47, 97, 13, 10, 33] = crc16Spec 0 [47, 97, 13, 10, 33] :=
  ⟨by decide, crc16_matches_spec 0 [47, 97, 13, 10, 33] (by decide)⟩

/-! ## Decoder loop lemmas -/

lemma list_set_getD_self {α : Type} (l : List α) (i : Nat) (d : α) :
    l.set i (l.getD i d) = l := by
  induction l generalizing i with
  | nil => rfl
  | cons a t ih =>
      cases i with
      | zero => simp
      | succ n => simpa using ih n

lemma list_getD_set_ne {α : Type} (l : List α) (i j : Nat) (a : α) (d : α) (h : i ≠ j) :
    (l.set i a).getD j d = l.getD j d := by
  induction l generalizing i j with
  | nil => rfl
  | cons x t ih =>
      cases i with
      | zero =>
          cases j with
          | zero => exact absurd rfl h
          | succ m => simp
      | succ n =>
          cases j with
          | zero => simp
          | succ m => simpa using ih n m (by omega)

/-- The decoder loop at its first (and only) matching entry: the result is
`getValue` mapped through `updateObject` at that index, with every other
entry untouched. -/
lemma decodeFields_match (t : List Char) (ml : Int) :
    ∀ (objs : List TObj) (i : Nat), firstMatch objs t = some i →
      decodeFields t ml objs =
        (getValue t ml (objs.getD i defaultTObj).startChar (objs.getD i defaultTObj).endChar).map
          (fun v => objs.set i (updateObject (objs.getD i defaultTObj) v)) := by
  intro objs
  induction objs with
  | nil => intro i h; simp [firstMatch] at h
  | cons o rest ih =>
      intro i h
      by_cases hm : codeMatches o.code.data t
      · have hi : i = 0 := by
          simp [firstMatch, hm] at h
          omega
        subst hi
        simp only [decodeFields, hm, if_pos, List.getD_cons_zero, List.set_cons_zero]
        cases hg : getValue t ml o.startChar o.endChar with
        | none => rfl
        | some v => rfl
      · simp only [firstMatch, hm, if_neg, Bool.false_eq_true, reduceIte] at h
        cases hrest : firstMatch rest t with
        | none => rw [hrest] at h; simp at h
        | some j =>
            rw [hrest] at h
            simp at h
            subst h
            have hrw := ih j hrest
            simp only [decodeFields, hm, Bool.false_eq_true, reduceIte, hrw,
              List.getD_cons_succ, List.set_cons_succ]
            cases hg : getValue t ml (rest.getD j defaultTObj).startChar
                (rest.getD j defaultTObj).endChar with
            | none => rfl
            | some v => rfl

/-- The decoder loop when no entry matches: the registry is unchanged. -/
lemma decodeFields_no_match (t : List Char) (ml : Int) :
    ∀ objs : List TObj, firstMatch objs t = none → decodeFields t ml objs = some objs := by
  intro objs
  induction objs with
  | nil => intro _; rfl
  | cons o rest ih =>
      intro h
      by_cases hm : codeMatches o.code.data t
      · simp [firstMatch, hm] at h
      · simp only [firstMatch, hm, Bool.false_eq_true, reduceIte] at h
        cases hrest : firstMatch rest t with
        | some j => rw [hrest] at h; simp at h
        | none =>
            simp only [decodeFields, hm, Bool.false_eq_true, reduceIte]
            rw [ih hrest]

/-- Entries other than the first matching one are never touched by the
decoder loop. -/
lemma decodeFields_other_unchanged (t : List Char) (ml : Int) (objs r : List TObj)
    (h : decodeFields t ml objs = some r) (j : Nat) (hj : firstMatch objs t ≠ some j) :
    r.getD j defaultTObj = objs.getD j defaultTObj := by
  cases hfm : firstMatch objs t with
  | none =>
      rw [decodeFields_no_match t ml objs hfm] at h
      injection h with h
      rw [h]
  | some i =>
      rw [decodeFields_match t ml objs i hfm] at h
      cases hg : getValue t ml (objs.getD i defaultTObj).startChar
          (objs.getD i defaultTObj).endChar with
      | none => rw [hg] at h; simp at h
      | some v =>
          rw [hg] at h
          simp at h
          rw [← h]
          have hij : i ≠ j := by
            intro he
            exact hj (he ▸ hfm)
          exact list_getD_set_ne objs i j _ defaultTObj hij

/-! ## C10 -/

/-- C10: after `setupDataReadout`, registry slot 18 (`gas_meter_m3`,
code `0-1:24.2.3`) still carries the default end delimiter `')'`: the
end-delimiter assignment adjacent to its setup wrote
`telegramObjects[12].endChar` instead, so the gas field is never
configured with `'*'`. -/
theorem c10_gas_meter_endchar_default :
    (telegramObjects.getD 18 defaultTObj).name = "gas_meter_m3" ∧
    (telegramObjects.getD 18 defaultTObj).code = "0-1:24.2.3" ∧
    (telegramObjects.getD 18 defaultTObj).endChar = ')' ∧
    (telegramObjects.getD 18 defaultTObj).endChar = defaultTObj.endChar ∧
    (telegramObjects.getD 12 defaultTObj).endChar = '*' := by
  refine ⟨rfl, rfl, rfl, rfl, rfl⟩

/-! ## C7 -/

/-- C7 counterexample: the codes of the registered field definitions are
not pairwise distinct — `setupDataReadout` never assigns slots 14 to 17,
which therefore all carry the same (empty) code. -/
theorem c7_codes_not_distinct :
    ¬ List.Pairwise (fun a b : TObj => a.code ≠ b.code) telegramObjects := by
  intro h
  have h14 : (telegramObjects.getD 14 defaultTObj).code =
      (telegramObjects.getD 15 defaultTObj).code := rfl
  revert h14
  revert h
  decide

/-- C7 amended: the codes of the fifteen explicitly assigned definitions
(slots 0-13 and 18) are pairwise distinct, while the four unassigned
slots 14-17 all carry the empty code (which prefix-matches every line);
for every input line the decoder matches at most one definition — the
first, in registry order, whose code is a byte-for-byte prefix of the
line (`firstMatch`) — and stops scanning after it, leaving every other
entry untouched. -/
theorem c7_amended_first_match_wins :
    (([0, 1, 2, 3, 4, 5, 6, 7, 8, 9, 10, 11, 12, 13, 18].map
        fun i => (telegramObjects.getD i defaultTObj).code).Pairwise (· ≠ ·))
    ∧ ((telegramObjects.getD 14 defaultTObj).code = "" ∧
        (telegramObjects.getD 15 defaultTObj).code = "" ∧
        (telegramObjects.getD 16 defaultTObj).code = "" ∧
        (telegramObjects.getD 17 defaultTObj).code = "")
    ∧ (∀ (t : List Char) (ml : Int) (objs r : List TObj),
        decodeFields t ml objs = some r →
        ∀ j : Nat, firstMatch objs t ≠ some j →
          r.getD j defaultTObj = objs.getD j defaultTObj) := by
  refine ⟨by decide, ⟨rfl, rfl, rfl, rfl⟩, ?_⟩
  intro t ml objs r h j hj
  exact decodeFields_other_unchanged t ml objs r h j hj

/-- Witness for `c7_amended_first_match_wins`: decoding the line `tgOne`
(first match at slot 2) leaves slot 0 untouched. -/
theorem c7_witness :
    decodeFields tgOne 16 telegramObjects = some c7res ∧
    c7res.getD 0 defaultTObj = telegramObjects.getD 0 defaultTObj :=
  ⟨by decide,
    c7_amended_first_match_wins.2.2 tgOne 16 telegramObjects c7res (by decide) 0 (by decide)⟩

/-! ## C8 -/

/-- C8: on the line `tgNoParen`, whose end delimiter `')'` is absent from
the searched range, the span `findCharInArrayRev(endchar) - s - 1` is
negative and the source passes it to `strncpy` as a (huge, after
`size_t` conversion) copy size: the out-of-range copy the claim rules
out is exactly what the code does, modelled as `none`; the decoder call
on the registry likewise reaches that undefined behavior. -/
theorem c8_negative_span_undefined_behavior :
    findCharInArrayRev tgNoParen ')' (18 - 2) - findCharInArrayRev tgNoParen '(' (18 - 2) - 1 =
      -13 ∧
    getValue tgNoParen 18 '(' ')' = none ∧
    decodeFields tgNoParen 18 telegramObjects = none ∧
    decodeTelegram tgNoParen 18 telegramObjects = none := by
  refine ⟨by decide, by decide, by decide, by decide⟩

/-! ## The integer atof models agree with the rational semantics -/

lemma atofTrunc_eq_floor (s : List Char) : atofTrunc s = ⌊atofQ s⌋ := by
  unfold atofTrunc atofQ
  rcases hrest : s.drop (s.takeWhile isDigitCh).length with _ | ⟨c, fr⟩
  · rw [Int.floor_natCast]
  · dsimp only
    by_cases hc : c = '.'
    · rw [if_pos hc, if_pos hc]
      rw [show ((10 : ℚ) ^ (fr.takeWhile isDigitCh).length)
            = ((10 ^ (fr.takeWhile isDigitCh).length : ℕ) : ℚ) by push_cast; ring]
      rw [Int.floor_nat_add, Rat.floor_natCast_div_natCast, Int.natCast_div]
    · rw [if_neg hc, if_neg hc, Int.floor_natCast]

lemma atofScaled1000_eq_floor (s : List Char) : atofScaled1000 s = ⌊1000 * atofQ s⌋ := by
  unfold atofScaled1000 atofQ
  rcases hrest : s.drop (s.takeWhile isDigitCh).length with _ | ⟨c, fr⟩
  · rw [show (1000 : ℚ) * (digitsVal (s.takeWhile isDigitCh) : ℚ)
          = ((1000 * digitsVal (s.takeWhile isDigitCh) : ℕ) : ℚ) by push_cast; ring]
    rw [Int.floor_natCast]
    push_cast
    ring
  · dsimp only
    by_cases hc : c = '.'
    · rw [if_pos hc, if_pos hc]
      have hcast : (1000 : ℚ) * ((digitsVal (s.takeWhile isDigitCh) : ℚ) +
            (digitsVal (fr.takeWhile isDigitCh) : ℚ) / (10 : ℚ) ^ (fr.takeWhile isDigitCh).length)
          = ((1000 * digitsVal (s.takeWhile isDigitCh) : ℕ) : ℚ) +
            ((1000 * digitsVal (fr.takeWhile isDigitCh) : ℕ) : ℚ) /
              ((10 ^ (fr.takeWhile isDigitCh).length : ℕ) : ℚ) := by
        push_cast
        ring
      rw [hcast, Int.floor_nat_add, Rat.floor_natCast_div_natCast, Int.natCast_div]
      push_cast
      ring
    · rw [if_neg hc, if_neg hc]
      rw [show (1000 : ℚ) * (digitsVal (s.takeWhile isDigitCh) : ℚ)
            = ((1000 * digitsVal (s.takeWhile isDigitCh) : ℕ) : ℚ) by push_cast; ring]
      rw [Int.floor_natCast]
      push_cast
      ring

/-! ## C9 -/

lemma findCharRevAux_none (a : List Char) (c : Char) :
    ∀ n : Nat, (∀ k : Nat, k < n → a.getD k (Char.ofNat 0) ≠ c) → findCharRevAux a c n = -1 := by
  intro n
  induction n with
  | zero => intro _; rfl
  | succ m ih =>
      intro h
      simp only [findCharRevAux]
      rw [if_neg (h m (by omega))]
      exact ih fun k hk => h k (by omega)

/-- C9: the two delimiter searches of `getValue` are bounded by
`maxlen - 2`, so a start or end delimiter that sits only in the last two
bytes of the buffer is never found: both searches return `-1`, and the
extraction fails (reaching, in fact, the negative-span `strncpy`,
modelled `none`). Successful extraction therefore needs at least two
bytes (normally CR LF) after the final delimiter. -/
theorem c9_searches_exclude_last_two_bytes (buffer : List Char) (maxlen : Int)
    (sc ec : Char)
    (hlen : maxlen ≤ (buffer.length : Int))
    (hsc : ∀ k : Nat, ∀ hk : k < buffer.length,
      buffer.get ⟨k, hk⟩ = sc → maxlen - 2 ≤ (k : Int))
    (hec : ∀ k : Nat, ∀ hk : k < buffer.length,
      buffer.get ⟨k, hk⟩ = ec → maxlen - 2 ≤ (k : Int)) :
    findCharInArrayRev buffer sc (maxlen - 2) = -1 ∧
    findCharInArrayRev buffer ec (maxlen - 2) = -1 ∧
    getValue buffer maxlen sc ec = none := by
  have key : ∀ d : Char,
      (∀ k : Nat, ∀ hk : k < buffer.length,
        buffer.get ⟨k, hk⟩ = d → maxlen - 2 ≤ (k : Int)) →
      findCharInArrayRev buffer d (maxlen - 2) = -1 := by
    intro d hd
    apply findCharRevAux_none
    intro k hk
    have hk2 : (k : Int) < maxlen - 2 := by omega
    have hkb : k < buffer.length := by omega
    rw [List.getD_eq_getElem buffer _ hkb]
    intro hcontra
    have := hd k hkb hcontra
    omega
  have h1 := key sc hsc
  have h2 := key ec hec
  refine ⟨h1, h2, ?_⟩
  unfold getValue
  rw [h1, h2]
  norm_num

/-- Witness for `c9_searches_exclude_last_two_bytes`: in the 4-byte
buffer `xy()`, both delimiters sit in the last two bytes and are
invisible to the searches. -/
theorem c9_witness :
    (4 : Int) ≤ ("xy()".data.length : Int) ∧
    findCharInArrayRev "xy()".data '(' (4 - 2) = -1 ∧
    findCharInArrayRev "xy()".data ')' (4 - 2) = -1 ∧
    getValue "xy()".data 4 '(' ')' = none := by
  refine ⟨by decide, ?_⟩
  have h := c9_searches_exclude_last_two_bytes "xy()".data 4 '(' ')'
    (by decide) (by decide) (by decide)
  exact h

/-! ## C1 -/

/-- C1: the running checksum is NOT carried across decoder calls —
`currentCRC` is a local of `decodeTelegram`, re-initialized to `0` on
every call. For the marker-free line `"b\r\n"` the checksum the decoder
holds after processing is `crc16 0 "b\r\n"`, unconditionally; had the
state been carried from a preceding line `"a\r\n"` as the claim
demands, it would have been the (different) value
`crc16 (crc16 0 "a\r\n") "b\r\n"`. -/
theorem c1_running_checksum_not_carried :
    findCharInArrayRev "b\r\n".data '/' 3 = -1 ∧
    findCharInArrayRev "b\r\n".data '!' 3 = -1 ∧
    (decodeTelegramCRC "b\r\n".data 3).2 = crc16 0 ("b\r\n".data.map Char.toNat) ∧
    crc16 (crc16 0 ("a\r\n".data.map Char.toNat)) ("b\r\n".data.map Char.toNat) ≠
      crc16 0 ("b\r\n".data.map Char.toNat) := by
  refine ⟨by decide, by decide, by decide, by decide⟩

/-! ## C2 -/

/-- C2: the telegram `"/a\r\n"` followed by `"!419D\r\n"` carries, after
its end marker, exactly the running checksum `0x419D` computed over all
bytes from the start marker through the end marker inclusive — by the
claim this must be reported valid — yet the decoder reports it invalid:
the function-local `currentCRC` is `0` when the `'!'` line arrives, so
the code compares the message checksum against `crc16 0 "!"` alone. -/
theorem c2_valid_checksum_reported_invalid :
    strtolHex "419D".data = crc16 0 ("/a\r\n!".data.map Char.toNat) ∧
    findCharInArrayRev "!419D\r\n".data '/' 7 = -1 ∧
    findCharInArrayRev "!419D\r\n".data '!' 7 = 0 ∧
    (decodeTelegramCRC "!419D\r\n".data 7).1 = false := by
  refine ⟨by decide, by decide, by decide, by decide⟩

/-! ## C4 -/

/-- C4 counterexample: on the matched line `tgBad` the bounded substring
`ab` is not numeric, yet the Reading does not keep its previous value
and dirty state: `getValue` returns `0`, which overwrites the stored
value `5` and sets the dirty flag. -/
theorem c4_nonnumeric_overwrites_reading :
    isNumber ['a', 'b'] = false ∧
    (objsA.getD 2 defaultTObj).value = 5 ∧
    (objsA.getD 2 defaultTObj).sendData = false ∧
    decodeFields tgBad 17 objsA =
      some (objsA.set 2 { objsA.getD 2 defaultTObj with value := 0, sendData := true }) := by
  refine ⟨by decide, by decide, by decide, by decide⟩

/-- Lemma: `getValue` returns `0` (not a no-update signal) whenever the copied
substring fails the numeric test, for any end delimiter, provided the
span stays inside the `res` buffer. -/
lemma getValue_not_number (buffer : List Char) (ml : Int) (sc ec : Char)
    (hspan0 : 0 ≤ findCharInArrayRev buffer ec (ml - 2) -
      findCharInArrayRev buffer sc (ml - 2) - 1)
    (hspan16 : findCharInArrayRev buffer ec (ml - 2) -
      findCharInArrayRev buffer sc (ml - 2) - 1 ≤ 16)
    (hnum : isNumber (strncpyRes
      (buffer.drop (findCharInArrayRev buffer sc (ml - 2) + 1).toNat)
      (findCharInArrayRev buffer ec (ml - 2) -
        findCharInArrayRev buffer sc (ml - 2) - 1).toNat) = false) :
    getValue buffer ml sc ec = some 0 := by
  simp only [getValue]
  rw [if_neg (by omega)]
  simp only [hnum, Bool.false_eq_true, if_false]
  by_cases h1 : ec = '*' <;> by_cases h2 : ec = ')' <;> simp [h1, h2]

/-- C4 amended: on a matched line whose bounded substring fails the
numeric test (a byte other than a digit, `'.'` or NUL), extraction does
not silently skip the update: `getValue` returns `0`, so the matched
Reading is overwritten with `0` and marked dirty whenever its stored
value was nonzero, and is left untouched only when the stored value was
already `0`. -/
theorem c4_amended_nonnumeric_yields_zero (t : List Char) (ml : Int) (objs : List TObj)
    (i : Nat) (sc ec : Char)
    (hsc : (objs.getD i defaultTObj).startChar = sc)
    (hec : (objs.getD i defaultTObj).endChar = ec)
    (hfm : firstMatch objs t = some i)
    (hspan0 : 0 ≤ findCharInArrayRev t ec (ml - 2) - findCharInArrayRev t sc (ml - 2) - 1)
    (hspan16 : findCharInArrayRev t ec (ml - 2) - findCharInArrayRev t sc (ml - 2) - 1 ≤ 16)
    (hnum : isNumber (strncpyRes
      (t.drop (findCharInArrayRev t sc (ml - 2) + 1).toNat)
      (findCharInArrayRev t ec (ml - 2) - findCharInArrayRev t sc (ml - 2) - 1).toNat) = false) :
    getValue t ml sc ec = some 0 ∧
    ((objs.getD i defaultTObj).value ≠ 0 →
      decodeFields t ml objs =
        some (objs.set i { objs.getD i defaultTObj with value := 0, sendData := true })) ∧
    ((objs.getD i defaultTObj).value = 0 → decodeFields t ml objs = some objs) := by
  have hgv : getValue t ml sc ec = some 0 :=
    getValue_not_number t ml sc ec hspan0 hspan16 hnum
  have h := decodeFields_match t ml objs i hfm
  rw [hsc, hec, hgv] at h
  refine ⟨hgv, ?_, ?_⟩
  · intro hne
    rw [h]
    show some (objs.set i (updateObject (objs.getD i defaultTObj) 0)) = _
    unfold updateObject
    rw [if_pos (by omega)]
  · intro heq
    rw [h]
    show some (objs.set i (updateObject (objs.getD i defaultTObj) 0)) = _
    unfold updateObject
    rw [if_neg (by omega), list_set_getD_self]

/-- Witness for `c4_amended_nonnumeric_yields_zero`: the line `tgBad`
against the registry whose slot 2 stores the nonzero value 5. -/
theorem c4_amended_witness :
    getValue tgBad 17 '(' '*' = some 0 ∧
    decodeFields tgBad 17 objsA =
      some (objsA.set 2 { objsA.getD 2 defaultTObj with value := 0, sendData := true }) := by
  have h := c4_amended_nonnumeric_yields_zero tgBad 17 objsA 2 '(' '*'
    (by decide) (by decide) (by decide) (by decide) (by decide) (by decide)
  exact ⟨h.1, h.2.1 (by decide)⟩

/-! ## C6 -/

/-- C6: on a matched line with an extracted value `v`, the decoder
overwrites the Reading and sets its dirty flag exactly when `v` differs
from the stored value; when `v` equals the stored value, the registry —
value and dirty flag included — is left exactly as it was. -/
theorem c6_update_iff_value_changed (t : List Char) (ml : Int) (objs : List TObj)
    (i : Nat) (v : Int)
    (hfm : firstMatch objs t = some i)
    (hgv : getValue t ml (objs.getD i defaultTObj).startChar
      (objs.getD i defaultTObj).endChar = some v) :
    (v ≠ (objs.getD i defaultTObj).value →
      decodeFields t ml objs =
        some (objs.set i { objs.getD i defaultTObj with value := v, sendData := true })) ∧
    (v = (objs.getD i defaultTObj).value → decodeFields t ml objs = some objs) := by
  have h := decodeFields_match t ml objs i hfm
  rw [hgv] at h
  constructor
  · intro hne
    rw [h]
    show some (objs.set i (updateObject (objs.getD i defaultTObj) v)) = _
    unfold updateObject
    rw [if_pos hne]
  · intro heq
    rw [h]
    show some (objs.set i (updateObject (objs.getD i defaultTObj) v)) = _
    unfold updateObject
    rw [if_neg (not_not_intro heq), list_set_getD_self]

/-- Witness for `c6_update_iff_value_changed`: the scenario line
`0-0:96.14.0(0001)` updates `actual_tarif_group` (slot 13, stored value
0) to 1 and marks it dirty. -/
theorem c6_witness :
    firstMatch telegramObjects tgTarif = some 13 ∧
    decodeFields tgTarif 19 telegramObjects =
      some (telegramObjects.set 13
        { telegramObjects.getD 13 defaultTObj with value := 1, sendData := true }) :=
  ⟨by decide,
    (c6_update_iff_value_changed tgTarif 19 telegramObjects 13 1
      (by decide) (by decide)).1 (by decide)⟩

end P1Meter
